import Mathlib

/-
Verification development for the hyperview HTTP caching layer
(src/services/cache/index.js).

The JavaScript source is shallowly embedded as pure Lean functions.
Asynchronous effects (store reads/writes, transport calls, event
dispatches) are made explicit as a trace of timed events: each
orchestration function returns its caller-visible result, the time at
which that result is handed to the caller, and the list of effects it
performs, each tagged with the (millisecond) time at which it happens.
Timer delays (`setTimeout(_, 10)`, `setTimeout(_, 2000)`) appear as the
corresponding additions on event times; promise-resolution latencies of
the transport and of blob decoding are universally quantified
parameters (`fd`, `bd`).

The Policy Engine (the `http-cache-semantics` dependency: `CachePolicy`)
is not part of the repository source; per the specification it is
modelled from the spec, with each modelled operation documented as such.
-/

namespace HyperviewCache

/-- Header mappings, as association lists from header name to value;
lookup returns the first binding of a name. -/
abbrev Headers := List (String × String)

/-- Request options handed to fetch: an optional HTTP method and a
header mapping. -/
structure RequestOptions where
  method : Option String
  headers : Headers
deriving DecidableEq, Repr

/-- An HTTP response: status, headers and the body text. -/
structure Response where
  status : Nat
  headers : Headers
  body : String
deriving DecidableEq, Repr

/-- Look a header up by name (first binding wins). -/
def getHeader (hs : Headers) (k : String) : Option String :=
  (hs.find? (fun q => q.1 == k)).map (fun q => q.2)

/-- Overwrite a header binding, as the JS object-spread
`{ ...headers, [k]: v }` does: the old bindings of `k` are shadowed by
the new value. -/
def setHeader (hs : Headers) (k v : String) : Headers :=
  hs.filter (fun q => q.1 != k) ++ [(k, v)]

/-- Split a character list at commas. -/
def splitCommaAux : List Char → List Char → List (List Char)
  | [], acc => [acc.reverse]
  | c :: rest, acc =>
    if c == ',' then acc.reverse :: splitCommaAux rest []
    else splitCommaAux rest (c :: acc)

/-- Strip leading and trailing spaces from a character list. -/
def trimSpaces (l : List Char) : List Char :=
  ((l.dropWhile (fun c => c == ' ')).reverse.dropWhile (fun c => c == ' ')).reverse

/-- The comma-separated directives of a `cache-control` header, each
trimmed of surrounding spaces. -/
def ccDirectives (hs : Headers) : List (List Char) :=
  match getHeader hs "cache-control" with
  | some v => (splitCommaAux v.data []).map trimSpaces
  | none => []

/-- Whether the `cache-control` header carries a given directive. -/
def ccHas (hs : Headers) (d : String) : Bool :=
  (ccDirectives hs).contains d.data

/-- Drop a required prefix from a character list, or fail. -/
def dropPrefixQ : List Char → List Char → Option (List Char)
  | [], l => some l
  | _ :: _, [] => none
  | p :: ps, c :: cs => if p == c then dropPrefixQ ps cs else none

/-- Parse a decimal numeral from a character list. -/
def parseNatAux : List Char → Nat → Option Nat
  | [], acc => some acc
  | c :: cs, acc =>
    if c.isDigit then parseNatAux cs (10 * acc + (c.toNat - 48)) else none

/-- Parse a non-empty decimal numeral. -/
def parseNat (l : List Char) : Option Nat :=
  if l.isEmpty then none else parseNatAux l 0

/-- Read a `max-age=N` directive. -/
def dirMaxAge (l : List Char) : Option Nat :=
  match dropPrefixQ "max-age=".data l with
  | some digits => parseNat digits
  | none => none

/-- The `max-age` value (in seconds) of a header mapping, `0` when
absent. -/
def maxAgeOf (hs : Headers) : Nat :=
  ((ccDirectives hs).filterMap dirMaxAge).headD 0

/-- Byte size of a string under UTF-8, modelling `blob.size` for a text
body. -/
def byteSize (s : String) : Nat :=
  s.data.foldl (fun n c => n + c.utf8Size) 0

/-- Uppercase a string, modelling `String.prototype.toUpperCase` for
ASCII method names. -/
def upperStr (s : String) : String :=
  String.mk (s.data.map Char.toUpper)

/-- Whether `pat` occurs as a contiguous sublist of `s`. -/
def listIncludes (s pat : List Char) : Bool :=
  (List.range (s.length + 1)).any (fun i => pat.isPrefixOf (s.drop i))

/-- JavaScript `String.prototype.includes`. -/
def strIncludes (s pat : String) : Bool :=
  listIncludes s.data pat.data

/-- Modelled from the spec: `PolicyState`, the serializable snapshot of
the caching policy kept with each stored entry (spec section 3) — the
original request headers, the original response status and headers, and
the effective request/response times, from which freshness and
conditional headers are later recomputed. This models the state of a
`CachePolicy` object of the `http-cache-semantics` dependency, whose
code is not part of this repository. -/
structure PolicyState where
  reqHeaders : Headers
  resStatus : Nat
  resHeaders : Headers
  requestTime : Nat
  responseTime : Nat
deriving DecidableEq, Repr

/-- Modelled from the spec: `computePolicy` (spec 4.1) — capture the
directives, validators and timing of a request/response pair. Models
`new CachePolicy(request, response, { shared: false })`. -/
def computePolicy (o : RequestOptions) (r : Response) (now : Nat) : PolicyState :=
  { reqHeaders := o.headers
    resStatus := r.status
    resHeaders := r.headers
    requestTime := now
    responseTime := now }

/-- Modelled from the spec: `isStorable` (spec 4.1) — false for
responses explicitly marked non-cacheable (a `no-store` directive on
either side, which the bypass rule of spec 4.3 relies on), or lacking
any freshness or validator information usable later. Models
`CachePolicy.storable()`. -/
def storable (p : PolicyState) : Bool :=
  !(ccHas p.reqHeaders "no-store") && !(ccHas p.resHeaders "no-store") &&
    (0 < maxAgeOf p.resHeaders ||
      (getHeader p.resHeaders "etag").isSome ||
      (getHeader p.resHeaders "last-modified").isSome)

/-- Modelled from the spec: `isFreshWithoutRevalidation` (spec 4.1) —
true when the age of the stored response is within its freshness lifetime,
accounting for `no-cache` on either side. Models
`CachePolicy.satisfiesWithoutRevalidation(request)`, with the ambient
clock passed explicitly as `now` (seconds). -/
def satisfiesWithoutRevalidation (p : PolicyState) (o : RequestOptions) (now : Nat) : Bool :=
  !(ccHas o.headers "no-cache") && !(ccHas p.resHeaders "no-cache") &&
    ((now - p.responseTime) < maxAgeOf p.resHeaders)

/-- Modelled from the spec: `timeToLive` (spec 4.1) — the remaining
freshness lifetime in milliseconds, clamped to zero (the clamp is the
truncated subtraction on `Nat`). Models `CachePolicy.timeToLive()`. -/
def timeToLive (p : PolicyState) (now : Nat) : Nat :=
  (maxAgeOf p.resHeaders - (now - p.responseTime)) * 1000

/-- Modelled from the spec: `reconstructResponseHeaders` (spec 4.1) —
rebuild the response headers of a stored entry as they should appear to
the caller. Models `CachePolicy.responseHeaders()`. -/
def responseHeaders (p : PolicyState) : Headers :=
  p.resHeaders

/-- Modelled from the spec: `buildRevalidationRequest` (spec 4.1) — add
conditional headers derived from the stored validators to the headers
of the incoming request, preserving the rest. Models
`CachePolicy.revalidationHeaders(request)`. -/
def revalidationHeaders (p : PolicyState) (o : RequestOptions) : Headers :=
  let h1 :=
    match getHeader p.resHeaders "etag" with
    | some e => setHeader o.headers "if-none-match" e
    | none => o.headers
  match getHeader p.resHeaders "last-modified" with
  | some lm => setHeader h1 "if-modified-since" lm
  | none => h1

/-- Modelled from the spec: the 304-equivalent header merge (spec 4.1) —
on a not-modified outcome the stored headers are kept but refreshed by
the headers the revalidation response carried. -/
def merge304 (stored revH : Headers) : Headers :=
  revH.foldl (fun acc kv => setHeader acc kv.1 kv.2) stored

/-- Modelled from the spec: `mergeRevalidation` (spec 4.1) — if the
origin indicates no change (a 304-equivalent status or matching
validator), `modified = false` and the policy keeps the stored response
with refreshed headers and timing; otherwise `modified = true` and the
new response entirely replaces the stored one. Models
`CachePolicy.revalidatedPolicy(request, revalidationResponse)`. -/
def revalidatedPolicy (p : PolicyState) (o : RequestOptions) (rev : Response) (now : Nat) :
    PolicyState × Bool :=
  let notModified :=
    rev.status == 304 ||
      (match getHeader p.resHeaders "etag", getHeader rev.headers "etag" with
       | some a, some b => a == b
       | _, _ => false)
  if notModified then
    ({ p with
        resHeaders := merge304 p.resHeaders rev.headers
        requestTime := now
        responseTime := now }, false)
  else
    (computePolicy o rev now, true)

/-- Modelled from the spec: the serialized form of a policy snapshot as
held in a stored entry. A snapshot read back from storage may be
malformed, in which case reconstruction fails (spec 7: "policy snapshot
cannot be reconstructed"). -/
inductive PolicyObj where
  | ok (p : PolicyState)
  | malformed (tag : String)
deriving DecidableEq, Repr

/-- Modelled from the spec: `CachePolicy.toObject()`. -/
def toObject (p : PolicyState) : PolicyObj :=
  PolicyObj.ok p

/-- Modelled from the spec: `CachePolicy.fromObject(obj)`, which throws
on a malformed snapshot. -/
def fromObject : PolicyObj → Except String PolicyState
  | PolicyObj.ok p => Except.ok p
  | PolicyObj.malformed tag => Except.error tag

/-- The `HttpCacheValue` stored in the Cache Store: body text, a header
snapshot, the byte size of the body, and the serialized policy. -/
structure HttpCacheValue where
  text : String
  headers : Headers
  size : Nat
  policy : PolicyObj
deriving DecidableEq, Repr

/-- A JavaScript value returned by `cache.get(url)`: `undefined` when
the key is absent, or `null` or a structured entry. The source tests
only `cacheValue !== undefined`. -/
inductive JsVal where
  | undef
  | null
  | entry (v : HttpCacheValue)
deriving DecidableEq, Repr

/-- A rejection observable on the promise returned to the caller. -/
inductive JsError where
  | typeError (msg : String)
  | policyError (tag : String)
  | fetchError (tag : String)
deriving DecidableEq, Repr

/-- An observable effect of the caching layer, tagged in the trace with
the time at which it happens. -/
inductive Event where
  | storeGet (url : String) (methodAtCall : Option String)
  | storeSet (url : String) (value : HttpCacheValue) (ttl : Nat)
  | fetchStart (url : String) (options : RequestOptions)
  | dispatch (eventName : String) (url : String)
deriving DecidableEq, Repr

/-- The outcome of one call into the caching layer: the settled value of
the promise handed to the caller, the time at which it settles, and the
timed trace of effects (including those of background work that
continues after the caller already has its response). -/
structure FetchOutcome where
  result : Except JsError Response
  returnTime : Nat
  trace : List (Nat × Event)
deriving Repr

/-- The transport capability, modelled as a deterministic function from
URL and options to either a rejection or a response. -/
abbrev BaseFetch := String → RequestOptions → Except String Response

/-- JavaScript `new Response(text, { headers })`. -/
def mkResponse (text : String) (hs : Headers) : Response :=
  { status := 200, headers := hs, body := text }

/-- The options a revalidation request is issued with:
`{ ...options, headers: policy.revalidationHeaders(options) }`. -/
def revOptions (p : PolicyState) (o : RequestOptions) : RequestOptions :=
  { o with headers := revalidationHeaders p o }

/-- Embedding of `revalidateCacheHit` (src lines 61-108). Executed at
time `t`. The stale response is built from the stored body text and the
headers reconstructed from the stored policy and returned synchronously
(at time `t`). The revalidation fetch is issued synchronously at `t`;
the `response-stale-revalidating` dispatch is deferred by
`setTimeout(_, 10)` to time `t + 10`. When the fetch resolves (after
`fd`), the merged policy is computed and a `setTimeout(_, 2000)` defers
the blob read (a further `bd`), after which the new cache value is
written and `response-revalidated` dispatched; the written value takes
`text` from the stored entry and size/headers from `newResponse`. A
transport rejection leaves the `.then` continuation unrun: no write, no
`response-revalidated` dispatch, and the already-returned stale
response unaffected. -/
def revalidateCacheHit (url : String) (cv : HttpCacheValue) (options : RequestOptions)
    (bf : BaseFetch) (t fd bd now : Nat) : FetchOutcome :=
  match fromObject cv.policy with
  | Except.error e =>
    { result := Except.error (JsError.policyError e), returnTime := t, trace := [] }
  | Except.ok policy =>
    let hs := responseHeaders policy
    let staleResponse := mkResponse cv.text hs
    match bf url (revOptions policy options) with
    | Except.error _ =>
      { result := Except.ok staleResponse
        returnTime := t
        trace := [(t, Event.fetchStart url (revOptions policy options)),
                  (t + 10, Event.dispatch "response-stale-revalidating" url)] }
    | Except.ok revalidationResponse =>
      let rp := revalidatedPolicy policy options revalidationResponse now
      let newResponse := if rp.2 then revalidationResponse else mkResponse cv.text hs
      let newCacheValue : HttpCacheValue :=
        { text := cv.text
          size := byteSize newResponse.body
          headers := newResponse.headers
          policy := toObject rp.1 }
      let w := t + fd + 2000 + bd
      { result := Except.ok staleResponse
        returnTime := t
        trace := [(t, Event.fetchStart url (revOptions policy options)),
                  (t + 10, Event.dispatch "response-stale-revalidating" url),
                  (w, Event.storeSet url newCacheValue (timeToLive rp.1 now)),
                  (w, Event.dispatch "response-revalidated" url)] }

/-- Embedding of `handleCacheHit` (src lines 110-130), on the raw value
the Store returned. Destructuring `null` (or `undefined`) throws a
`TypeError`; `CachePolicy.fromObject` on a malformed snapshot throws;
neither is caught, so the rejection settles the promise of the caller. A
fresh entry is answered synchronously from the stored body and the
reconstructed headers with no effect at all; otherwise the stale path
of `revalidateCacheHit` runs. -/
def handleCacheHit (url : String) (jv : JsVal) (options : RequestOptions)
    (bf : BaseFetch) (t fd bd now : Nat) : FetchOutcome :=
  match jv with
  | JsVal.undef =>
    { result := Except.error (JsError.typeError "destructure undefined")
      returnTime := t, trace := [] }
  | JsVal.null =>
    { result := Except.error (JsError.typeError "destructure null")
      returnTime := t, trace := [] }
  | JsVal.entry cv =>
    match fromObject cv.policy with
    | Except.error e =>
      { result := Except.error (JsError.policyError e), returnTime := t, trace := [] }
    | Except.ok policy =>
      if satisfiesWithoutRevalidation policy options now then
        { result := Except.ok (mkResponse cv.text (responseHeaders policy))
          returnTime := t, trace := [] }
      else
        revalidateCacheHit url cv options bf t fd bd now

/-- Embedding of `handleCacheMiss` (src lines 27-59). The transport is
called at time `t`; a rejection propagates to the caller. On a response
the policy is computed; a non-storable response is returned with no
write, and a storable one is returned while a fire-and-forget
`response.blob().then` writes the entry (body text, headers, byte size,
serialized policy) with TTL `timeToLive`, at time `t + fd + bd` — after
the caller already has the response at `t + fd`. -/
def handleCacheMiss (url : String) (options : RequestOptions)
    (bf : BaseFetch) (t fd bd now : Nat) : FetchOutcome :=
  match bf url options with
  | Except.error e =>
    { result := Except.error (JsError.fetchError e)
      returnTime := t + fd
      trace := [(t, Event.fetchStart url options)] }
  | Except.ok response =>
    let cachePolicy := computePolicy options response now
    if !(storable cachePolicy) then
      { result := Except.ok response
        returnTime := t + fd
        trace := [(t, Event.fetchStart url options)] }
    else
      let cacheValue : HttpCacheValue :=
        { text := response.body
          headers := response.headers
          size := byteSize response.body
          policy := toObject cachePolicy }
      { result := Except.ok response
        returnTime := t + fd
        trace := [(t, Event.fetchStart url options),
                  (t + fd + bd, Event.storeSet url cacheValue (timeToLive cachePolicy now))] }

/-- The configured no-store URL marker (src line 143). -/
def noStorePattern : String :=
  "without_caching.xml"

/-- The `optionsNew` computation of `cachedFetch` (src lines 141-147):
the method is uppercased, and a URL matching the no-store pattern
additionally gets `cache-control: no-cache, no-store` forced onto the
outgoing headers. -/
def normalizeOptions (url : String) (options : RequestOptions) : RequestOptions :=
  if !(strIncludes url noStorePattern) then
    { options with method := options.method.map upperStr }
  else
    { options with
        method := options.method.map upperStr
        headers := setHeader options.headers "cache-control" "no-cache, no-store" }

/-- Embedding of `cachedFetch` (src lines 132-154). The Store is read
first (at time `t0`, with the request method still as the caller
supplied it); the read resolves after `gd`; then `optionsNew` is
computed, and the hit path is taken for every read value other than
exactly `undefined`. -/
def cachedFetch (url : String) (options : RequestOptions) (store : String → JsVal)
    (bf : BaseFetch) (t0 gd fd bd now : Nat) : FetchOutcome :=
  let getEvent := (t0, Event.storeGet url options.method)
  let optionsNew := normalizeOptions url options
  let out :=
    match store url with
    | JsVal.undef => handleCacheMiss url optionsNew bf (t0 + gd) fd bd now
    | jv => handleCacheHit url jv optionsNew bf (t0 + gd) fd bd now
  { out with trace := getEvent :: out.trace }

/-- Whether an event is a Store write. -/
def isStoreSetE : Event → Bool
  | Event.storeSet _ _ _ => true
  | _ => false

/-- Whether an event is a transport call. -/
def isFetchStartE : Event → Bool
  | Event.fetchStart _ _ => true
  | _ => false

/-- Whether an event is the dispatch of a given lifecycle event name. -/
def isDispatchOf (name : String) : Event → Bool
  | Event.dispatch n _ => n == name
  | _ => false

/-- Time of the first event of a trace satisfying a predicate. -/
def timeOfFirst (tr : List (Nat × Event)) (p : Event → Bool) : Option Nat :=
  (tr.find? (fun te => p te.2)).map (fun te => te.1)

/-- The cache values written along a trace, in order. -/
def storedValues (tr : List (Nat × Event)) : List HttpCacheValue :=
  tr.filterMap (fun te =>
    match te.2 with
    | Event.storeSet _ v _ => some v
    | _ => none)

/-- Finding in a concatenation skips a first block on which the
predicate fails everywhere. -/
theorem find?_append_none {α : Type} (l1 l2 : List α) (p : α → Bool)
    (h : ∀ a ∈ l1, p a = false) : (l1 ++ l2).find? p = l2.find? p := by
  induction l1 with
  | nil => rfl
  | cons a t ih =>
    have ha : p a = false := h a (List.mem_cons_self a t)
    simp only [List.cons_append, List.find?, ha]
    exact ih (fun x hx => h x (List.mem_cons_of_mem a hx))

/-- Looking up a header just set yields the value set. -/
theorem getHeader_setHeader (hs : Headers) (k v : String) :
    getHeader (setHeader hs k v) k = some v := by
  unfold getHeader setHeader
  rw [find?_append_none]
  · simp [List.find?]
  · intro a ha
    have h2 := List.of_mem_filter ha
    simp only [bne_iff_ne, ne_eq] at h2
    simp [h2]

/-- Forcing `cache-control: no-cache, no-store` onto a header mapping
makes the `no-store` directive visible. -/
theorem ccHas_noStore_setHeader (hs : Headers) :
    ccHas (setHeader hs "cache-control" "no-cache, no-store") "no-store" = true := by
  unfold ccHas ccDirectives
  rw [getHeader_setHeader]
  decide

/-- A policy derived from a request carrying a `no-store` directive is
never storable. -/
theorem storable_false_of_reqNoStore (p : PolicyState)
    (h : ccHas p.reqHeaders "no-store" = true) : storable p = false := by
  unfold storable
  simp [h]

/-- Two requests differing only in a method spelling with the same
uppercase form normalize to the same options. -/
theorem normalizeOptions_method_congr (url : String) (o1 : RequestOptions) (m2 : Option String)
    (hm : o1.method.map upperStr = m2.map upperStr) :
    normalizeOptions url { method := m2, headers := o1.headers } = normalizeOptions url o1 := by
  unfold normalizeOptions
  cases h : strIncludes url noStorePattern <;> simp [hm]

/-- The revalidation path settles the promise handed to the caller with
the stale response built from the stored body and the reconstructed
headers, whatever the transport does. -/
theorem revalidate_result (url : String) (cv : HttpCacheValue) (options : RequestOptions)
    (bf : BaseFetch) (t fd bd now : Nat) (p : PolicyState)
    (h1 : fromObject cv.policy = Except.ok p) :
    (revalidateCacheHit url cv options bf t fd bd now).result =
      Except.ok (mkResponse cv.text (responseHeaders p)) := by
  unfold revalidateCacheHit
  rw [h1]
  cases hbf : bf url (revOptions p options) <;> simp [hbf]

/-- The revalidation path hands its response to the caller at its own
start time, synchronously. -/
theorem revalidate_returnTime (url : String) (cv : HttpCacheValue) (options : RequestOptions)
    (bf : BaseFetch) (t fd bd now : Nat) (p : PolicyState)
    (h1 : fromObject cv.policy = Except.ok p) :
    (revalidateCacheHit url cv options bf t fd bd now).returnTime = t := by
  unfold revalidateCacheHit
  rw [h1]
  cases hbf : bf url (revOptions p options) <;> simp [hbf]

/-- Every Store write of the revalidation path happens strictly after
the start time at which the stale response is returned. -/
theorem revalidate_storeSet_late (url : String) (cv : HttpCacheValue) (options : RequestOptions)
    (bf : BaseFetch) (t fd bd now : Nat) (p : PolicyState)
    (h1 : fromObject cv.policy = Except.ok p) :
    ∀ te ∈ (revalidateCacheHit url cv options bf t fd bd now).trace,
      isStoreSetE te.2 = true → t < te.1 := by
  unfold revalidateCacheHit
  rw [h1]
  cases hbf : bf url (revOptions p options) <;> simp [hbf, isStoreSetE]
  omega

/-- Stored policy of the C1 scenario: a stale entry validated by an
entity tag. -/
def c1Policy : PolicyState :=
  { reqHeaders := [], resStatus := 200, resHeaders := [("etag", "v1")],
    requestTime := 0, responseTime := 0 }

/-- Stored entry of the C1 scenario, with body text of 8 bytes. -/
def c1Value : HttpCacheValue :=
  { text := "old body", headers := [("etag", "v1")], size := 8, policy := toObject c1Policy }

/-- Revalidation response of the C1 scenario: a changed validator and a
new 14-byte body, so the merge reports the resource as modified. -/
def c1Rev : Response :=
  { status := 200, headers := [("etag", "v2")], body := "brand new body" }

/-- C1: evaluation of the code at a failing input. The claim says that
on a modified revalidation outcome the entry written to the Store takes
body text, headers and byte size all from the new response. The code
disagrees on the body: at this input the merge reports modified (second
conjunct), yet the written entry keeps the previously stored body text
"old body" while its size (14) and headers are those of the new
response whose body is "brand new body" — the entry is internally
inconsistent, since the 8-byte stored text is paired with the 14-byte
size of the new body. -/
theorem c1_modified_revalidation_keeps_old_body :
    ((storedValues (revalidateCacheHit "doc.xml" c1Value { method := some "GET", headers := [] }
          (fun _ _ => Except.ok c1Rev) 0 1 1 50).trace).map
        (fun v => (v.text, v.size, v.headers)) =
      [("old body", 14, [("etag", "v2")])]) ∧
    (revalidatedPolicy c1Policy { method := some "GET", headers := [] } c1Rev 50).2 = true ∧
    c1Rev.body = "brand new body" ∧ byteSize c1Rev.body = 14 ∧ byteSize "old body" = 8 := by
  refine ⟨by decide, by decide, rfl, by decide, by decide⟩

/-- C2, counterexample: a request whose URL matches the no-store
pattern still performs a Cache Store read — `cache.get(url)` runs
before the URL is checked — so the claim that no Store read is ever
performed for such URLs is false. -/
theorem c2_counterexample :
    (cachedFetch "a_without_caching.xml" { method := some "GET", headers := [] }
        (fun _ => JsVal.undef) (fun _ _ => Except.error "down") 0 0 1 1 0).trace.head? =
      some (0, Event.storeGet "a_without_caching.xml" (some "GET")) := by
  rfl

/-- C2, amended: for a request whose URL matches the no-store pattern,
the Store read is still performed (first conjunct — contrary to the
claim as stated), but, provided the lookup finds no entry, no Store
write ever happens and every request issued to the transport carries
the header `cache-control: no-cache, no-store`. -/
theorem c2_amended (url : String) (options : RequestOptions) (store : String → JsVal)
    (bf : BaseFetch) (t0 gd fd bd now : Nat)
    (hurl : strIncludes url noStorePattern = true)
    (hmiss : store url = JsVal.undef) :
    (cachedFetch url options store bf t0 gd fd bd now).trace.head? =
        some (t0, Event.storeGet url options.method) ∧
    (∀ te ∈ (cachedFetch url options store bf t0 gd fd bd now).trace,
        isStoreSetE te.2 = false) ∧
    (∀ te ∈ (cachedFetch url options store bf t0 gd fd bd now).trace, ∀ u o,
        te.2 = Event.fetchStart u o →
        getHeader o.headers "cache-control" = some "no-cache, no-store") := by
  have hn : normalizeOptions url options =
      { options with
          method := options.method.map upperStr
          headers := setHeader options.headers "cache-control" "no-cache, no-store" } := by
    unfold normalizeOptions
    simp [hurl]
  have hga : getHeader (normalizeOptions url options).headers "cache-control" =
      some "no-cache, no-store" := by
    rw [hn]
    exact getHeader_setHeader options.headers "cache-control" "no-cache, no-store"
  have hst : ∀ r : Response, storable (computePolicy (normalizeOptions url options) r now) = false := by
    intro r
    apply storable_false_of_reqNoStore
    rw [hn]
    exact ccHas_noStore_setHeader options.headers
  have htr : (cachedFetch url options store bf t0 gd fd bd now).trace =
      [(t0, Event.storeGet url options.method),
       (t0 + gd, Event.fetchStart url (normalizeOptions url options))] := by
    unfold cachedFetch
    rw [hmiss]
    unfold handleCacheMiss
    cases hbf : bf url (normalizeOptions url options) with
    | error e => simp [hbf]
    | ok r => simp [hbf, hst r]
  rw [htr]
  refine ⟨rfl, ?_, ?_⟩
  · intro te hte
    rcases List.mem_cons.mp hte with rfl | hte2
    · rfl
    · rcases List.mem_cons.mp hte2 with rfl | h3
      · rfl
      · exact absurd h3 (List.not_mem_nil te)
  · intro te hte u o heq
    rcases List.mem_cons.mp hte with rfl | hte2
    · exact absurd heq (by simp)
    · rcases List.mem_cons.mp hte2 with rfl | h3
      · have heq2 : Event.fetchStart url (normalizeOptions url options) = Event.fetchStart u o := heq
        injection heq2 with hu ho
        rw [ho] at hga
        exact hga
      · exact absurd h3 (List.not_mem_nil te)

/-- C2, witness for the amended theorem at a concrete no-store URL with
an empty Store. -/
theorem c2_amended_witness :
    (cachedFetch "b_without_caching.xml" { method := some "GET", headers := [] }
        (fun _ => JsVal.undef) (fun _ _ => Except.error "down") 3 0 1 1 0).trace.head? =
      some (3, Event.storeGet "b_without_caching.xml" (some "GET")) :=
  (c2_amended "b_without_caching.xml" { method := some "GET", headers := [] }
    (fun _ => JsVal.undef) (fun _ _ => Except.error "down") 3 0 1 1 0 (by decide) rfl).1

/-- Stored policy of the C3 scenario: a stale entry with an entity
tag. -/
def c3Policy : PolicyState :=
  { reqHeaders := [], resStatus := 200, resHeaders := [("etag", "v1")],
    requestTime := 0, responseTime := 0 }

/-- Stored entry of the C3 scenario. -/
def c3Value : HttpCacheValue :=
  { text := "stale body", headers := [("etag", "v1")], size := 10, policy := toObject c3Policy }

/-- Revalidation response of the C3 scenario: a 304-equivalent
not-modified outcome. -/
def c3Rev : Response :=
  { status := 304, headers := [("etag", "v1")], body := "" }

/-- C3, counterexample: on a stale hit the revalidation transport call
starts at time 0 while the `response-stale-revalidating` dispatch,
deferred by `setTimeout(_, 10)`, happens at time 10 — so the event is
not dispatched strictly before the network call starts, refuting the
claim as stated. -/
theorem c3_counterexample :
    timeOfFirst (revalidateCacheHit "doc.xml" c3Value { method := some "GET", headers := [] }
        (fun _ _ => Except.ok c3Rev) 0 1 1 50).trace isFetchStartE = some 0 ∧
    timeOfFirst (revalidateCacheHit "doc.xml" c3Value { method := some "GET", headers := [] }
        (fun _ _ => Except.ok c3Rev) 0 1 1 50).trace
      (isDispatchOf "response-stale-revalidating") = some 10 := by
  refine ⟨by decide, by decide⟩

/-- C3, amended: on a stale cache hit the revalidation network call
starts at time `t` and the `response-stale-revalidating` event is
dispatched strictly after it, at `t + 10` (the dispatch is deferred by
a 10 ms timer while the fetch is issued synchronously); the
`response-revalidated` event is dispatched after the network call
returns (at `t + fd`), the merge completes and the merged entry is
written to the Store — the write appears at the same timer tick but
strictly earlier in execution order (smaller index) than the
`response-revalidated` dispatch. -/
theorem c3_amended (url : String) (cv : HttpCacheValue) (options : RequestOptions)
    (bf : BaseFetch) (t fd bd now : Nat) (p : PolicyState) (rev : Response)
    (h1 : fromObject cv.policy = Except.ok p)
    (h2 : satisfiesWithoutRevalidation p options now = false)
    (h3 : bf url (revOptions p options) = Except.ok rev) :
    timeOfFirst (handleCacheHit url (JsVal.entry cv) options bf t fd bd now).trace isFetchStartE = some t ∧
    timeOfFirst (handleCacheHit url (JsVal.entry cv) options bf t fd bd now).trace
        (isDispatchOf "response-stale-revalidating") = some (t + 10) ∧
    timeOfFirst (handleCacheHit url (JsVal.entry cv) options bf t fd bd now).trace isStoreSetE =
        some (t + fd + 2000 + bd) ∧
    timeOfFirst (handleCacheHit url (JsVal.entry cv) options bf t fd bd now).trace
        (isDispatchOf "response-revalidated") = some (t + fd + 2000 + bd) ∧
    (handleCacheHit url (JsVal.entry cv) options bf t fd bd now).trace.findIdx
        (fun te => isStoreSetE te.2) <
      (handleCacheHit url (JsVal.entry cv) options bf t fd bd now).trace.findIdx
        (fun te => isDispatchOf "response-revalidated" te.2) ∧
    t < t + 10 ∧ t + fd < t + fd + 2000 + bd := by
  have hh : handleCacheHit url (JsVal.entry cv) options bf t fd bd now =
      revalidateCacheHit url cv options bf t fd bd now := by
    simp [handleCacheHit, h1, h2]
  rw [hh]
  unfold revalidateCacheHit
  rw [h1]
  simp only [h3]
  refine ⟨?_, ?_, ?_, ?_, ?_, by omega, by omega⟩ <;>
    simp [timeOfFirst, List.find?, isFetchStartE, isDispatchOf, isStoreSetE, List.findIdx_cons]

/-- C3, witness for the amended theorem on a concrete stale entry: the
fetch starts at time 5 and the revalidating dispatch follows at 15. -/
theorem c3_amended_witness :
    timeOfFirst (handleCacheHit "doc.xml" (JsVal.entry c3Value) { method := some "GET", headers := [] }
        (fun _ _ => Except.ok c3Rev) 5 1 1 50).trace isFetchStartE = some 5 ∧
    timeOfFirst (handleCacheHit "doc.xml" (JsVal.entry c3Value) { method := some "GET", headers := [] }
        (fun _ _ => Except.ok c3Rev) 5 1 1 50).trace
      (isDispatchOf "response-stale-revalidating") = some 15 := by
  have h := c3_amended "doc.xml" c3Value { method := some "GET", headers := [] }
    (fun _ _ => Except.ok c3Rev) 5 1 1 50 c3Policy c3Rev rfl (by decide) rfl
  exact ⟨h.1, h.2.1⟩

/-- C4: on a stale cache hit the caller receives exactly the stored
body text with the headers reconstructed from the stored policy; the
response settles at the start time `t` of the hit handling, strictly
before any Store write of the background revalidation; and the settled
result does not depend on the transport at all (in particular it is not
awaited). -/
theorem c4_stale_hit (url : String) (cv : HttpCacheValue) (options : RequestOptions)
    (bf : BaseFetch) (t fd bd now : Nat) (p : PolicyState)
    (h1 : fromObject cv.policy = Except.ok p)
    (h2 : satisfiesWithoutRevalidation p options now = false) :
    (handleCacheHit url (JsVal.entry cv) options bf t fd bd now).result =
        Except.ok (mkResponse cv.text (responseHeaders p)) ∧
    (handleCacheHit url (JsVal.entry cv) options bf t fd bd now).returnTime = t ∧
    (∀ te ∈ (handleCacheHit url (JsVal.entry cv) options bf t fd bd now).trace,
        isStoreSetE te.2 = true →
        (handleCacheHit url (JsVal.entry cv) options bf t fd bd now).returnTime < te.1) ∧
    (∀ bf2 : BaseFetch,
        (handleCacheHit url (JsVal.entry cv) options bf2 t fd bd now).result =
          (handleCacheHit url (JsVal.entry cv) options bf t fd bd now).result) := by
  have hh : ∀ bfx : BaseFetch, handleCacheHit url (JsVal.entry cv) options bfx t fd bd now =
      revalidateCacheHit url cv options bfx t fd bd now := by
    intro bfx
    simp [handleCacheHit, h1, h2]
  rw [hh]
  refine ⟨revalidate_result url cv options bf t fd bd now p h1, ?_, ?_, ?_⟩
  · exact revalidate_returnTime url cv options bf t fd bd now p h1
  · rw [revalidate_returnTime url cv options bf t fd bd now p h1]
    exact revalidate_storeSet_late url cv options bf t fd bd now p h1
  · intro bf2
    rw [hh]
    rw [revalidate_result url cv options bf t fd bd now p h1,
        revalidate_result url cv options bf2 t fd bd now p h1]

/-- Stored policy of the C4 witness: a stale entry with an entity
tag. -/
def c4Policy : PolicyState :=
  { reqHeaders := [], resStatus := 200, resHeaders := [("etag", "v1")],
    requestTime := 0, responseTime := 0 }

/-- Stored entry of the C4 witness. -/
def c4Value : HttpCacheValue :=
  { text := "stale body", headers := [("etag", "v1")], size := 10, policy := toObject c4Policy }

/-- C4, witness: a concrete stale hit returns the stored body even when
the transport is down. -/
theorem c4_witness :
    (handleCacheHit "doc.xml" (JsVal.entry c4Value) { method := some "GET", headers := [] }
        (fun _ _ => Except.error "down") 3 1 1 99).result =
      Except.ok (mkResponse "stale body" [("etag", "v1")]) :=
  (c4_stale_hit "doc.xml" c4Value { method := some "GET", headers := [] }
    (fun _ _ => Except.error "down") 3 1 1 99 c4Policy rfl (by decide)).1

/-- C5: on a fresh cache hit (the stored policy satisfies the request
without revalidation) the outcome is exactly a response built from the
stored body text and the headers reconstructed from the stored policy,
settled synchronously, with an empty effect trace — in particular the
transport is never called. -/
theorem c5_fresh_hit (url : String) (cv : HttpCacheValue) (options : RequestOptions)
    (bf : BaseFetch) (t fd bd now : Nat) (p : PolicyState)
    (h1 : fromObject cv.policy = Except.ok p)
    (h2 : satisfiesWithoutRevalidation p options now = true) :
    handleCacheHit url (JsVal.entry cv) options bf t fd bd now =
      { result := Except.ok (mkResponse cv.text (responseHeaders p))
        returnTime := t
        trace := [] } := by
  simp [handleCacheHit, h1, h2]

/-- Stored policy of the C5 witness: fresh for 60 seconds. -/
def c5Policy : PolicyState :=
  { reqHeaders := [], resStatus := 200, resHeaders := [("cache-control", "max-age=60")],
    requestTime := 0, responseTime := 0 }

/-- Stored entry of the C5 witness. -/
def c5Value : HttpCacheValue :=
  { text := "cached body", headers := [("cache-control", "max-age=60")], size := 11,
    policy := toObject c5Policy }

/-- C5, witness: a concrete fresh hit 10 seconds into a 60-second
lifetime is served from the Store with no effects. -/
theorem c5_witness :
    handleCacheHit "doc.xml" (JsVal.entry c5Value) { method := some "GET", headers := [] }
        (fun _ _ => Except.error "down") 7 1 1 10 =
      { result := Except.ok (mkResponse "cached body" [("cache-control", "max-age=60")])
        returnTime := 7
        trace := [] } :=
  c5_fresh_hit "doc.xml" c5Value { method := some "GET", headers := [] }
    (fun _ _ => Except.error "down") 7 1 1 10 c5Policy rfl (by decide)

/-- Stored policy of the C6 scenario, carrying a header (`x-note`) that
the revalidation response will refresh. -/
def c6Policy : PolicyState :=
  { reqHeaders := [], resStatus := 200, resHeaders := [("etag", "v1"), ("x-note", "old")],
    requestTime := 0, responseTime := 0 }

/-- Stored entry of the C6 scenario. -/
def c6Value : HttpCacheValue :=
  { text := "body", headers := [("etag", "v1"), ("x-note", "old")], size := 4,
    policy := toObject c6Policy }

/-- Revalidation response of the C6 scenario: not modified, but with a
refreshed `x-note` header. -/
def c6Rev : Response :=
  { status := 304, headers := [("x-note", "new")], body := "" }

/-- Merged policy of the C6 scenario: the revalidated policy whose
headers carry the refreshed `x-note`. -/
def c6Merged : PolicyState :=
  { reqHeaders := [], resStatus := 200, resHeaders := [("etag", "v1"), ("x-note", "new")],
    requestTime := 50, responseTime := 50 }

/-- C6, counterexample: on a not-modified revalidation whose response
refreshes a header, the entry written to the Store still carries the
old header value (`x-note: old`), while the 304-equivalent merge rule
would refresh it to `new` (second conjunct: the revalidated policy
reconstructs the refreshed value) — so the claim that the entry
headers are refreshed per the 304-equivalent merge rule is false. -/
theorem c6_counterexample :
    ((storedValues (revalidateCacheHit "doc.xml" c6Value { method := some "GET", headers := [] }
          (fun _ _ => Except.ok c6Rev) 0 1 1 50).trace).map
        (fun v => getHeader v.headers "x-note") = [some "old"]) ∧
    getHeader (responseHeaders
        (revalidatedPolicy c6Policy { method := some "GET", headers := [] } c6Rev 50).1)
      "x-note" = some "new" := by
  refine ⟨by decide, by decide⟩

/-- C6, amended: on a stale hit whose revalidation reports no
modification, the entry written to the Store keeps the stored body text
byte for byte (with its size recomputed from that same text) and its
policy snapshot is replaced by the revalidated policy, but its headers
field holds the headers reconstructed from the pre-revalidation policy,
not the 304-merged refreshed headers. -/
theorem c6_amended (url : String) (cv : HttpCacheValue) (options : RequestOptions)
    (bf : BaseFetch) (t fd bd now : Nat) (p p2 : PolicyState) (rev : Response)
    (h1 : fromObject cv.policy = Except.ok p)
    (h3 : bf url (revOptions p options) = Except.ok rev)
    (h4 : revalidatedPolicy p options rev now = (p2, false)) :
    storedValues (revalidateCacheHit url cv options bf t fd bd now).trace =
      [{ text := cv.text, size := byteSize cv.text, headers := responseHeaders p,
         policy := toObject p2 }] := by
  unfold revalidateCacheHit
  rw [h1]
  simp only [h3, h4]
  simp [storedValues, mkResponse]

/-- C6, witness for the amended theorem at the concrete not-modified
scenario. -/
theorem c6_amended_witness :
    storedValues (revalidateCacheHit "doc.xml" c6Value { method := some "GET", headers := [] }
        (fun _ _ => Except.ok c6Rev) 2 1 1 50).trace =
      [{ text := "body", size := byteSize "body",
         headers := [("etag", "v1"), ("x-note", "old")], policy := toObject c6Merged }] :=
  c6_amended "doc.xml" c6Value { method := some "GET", headers := [] }
    (fun _ _ => Except.ok c6Rev) 2 1 1 50 c6Policy c6Merged c6Rev rfl rfl (by decide)

/-- C7: when the background revalidation fetch of a stale hit fails,
the caller still gets the stale response built from the stored body and
reconstructed headers (the failure is not surfaced), the Store receives
no write at all, and exactly one transport call appears in the trace —
no retry is scheduled. -/
theorem c7_reval_failure (url : String) (cv : HttpCacheValue) (options : RequestOptions)
    (bf : BaseFetch) (t fd bd now : Nat) (p : PolicyState) (e : String)
    (h1 : fromObject cv.policy = Except.ok p)
    (h2 : satisfiesWithoutRevalidation p options now = false)
    (h3 : bf url (revOptions p options) = Except.error e) :
    (handleCacheHit url (JsVal.entry cv) options bf t fd bd now).result =
        Except.ok (mkResponse cv.text (responseHeaders p)) ∧
    storedValues (handleCacheHit url (JsVal.entry cv) options bf t fd bd now).trace = [] ∧
    (handleCacheHit url (JsVal.entry cv) options bf t fd bd now).trace.countP
        (fun te => isFetchStartE te.2) = 1 := by
  have hh : handleCacheHit url (JsVal.entry cv) options bf t fd bd now =
      revalidateCacheHit url cv options bf t fd bd now := by
    simp [handleCacheHit, h1, h2]
  rw [hh]
  unfold revalidateCacheHit
  rw [h1]
  simp [h3, storedValues, List.countP_cons, isFetchStartE]

/-- Stored policy of the C7 witness. -/
def c7Policy : PolicyState :=
  { reqHeaders := [], resStatus := 200, resHeaders := [("etag", "v1")],
    requestTime := 0, responseTime := 0 }

/-- Stored entry of the C7 witness. -/
def c7Value : HttpCacheValue :=
  { text := "stale body", headers := [("etag", "v1")], size := 10, policy := toObject c7Policy }

/-- C7, witness: with a rejecting transport the stale hit still
resolves with the stored body and writes nothing. -/
theorem c7_witness :
    ((handleCacheHit "doc.xml" (JsVal.entry c7Value) { method := some "GET", headers := [] }
        (fun _ _ => Except.error "network down") 4 1 1 99).result =
      Except.ok (mkResponse "stale body" [("etag", "v1")])) ∧
    storedValues (handleCacheHit "doc.xml" (JsVal.entry c7Value) { method := some "GET", headers := [] }
        (fun _ _ => Except.error "network down") 4 1 1 99).trace = [] := by
  have h := c7_reval_failure "doc.xml" c7Value { method := some "GET", headers := [] }
    (fun _ _ => Except.error "network down") 4 1 1 99 c7Policy "network down" rfl (by decide) rfl
  exact ⟨h.1, h.2.1⟩

/-- Stored entry of the C8 scenario, whose policy snapshot cannot be
reconstructed. -/
def c8Value : HttpCacheValue :=
  { text := "stale body", headers := [], size := 10, policy := PolicyObj.malformed "corrupt" }

/-- C8, counterexample: a request whose stored entry holds a malformed
policy snapshot is not handled as an ordinary cache miss — the call
settles with the policy-reconstruction error, so the caller does
observe a cache-specific rejection, refuting the claim as stated. -/
theorem c8_counterexample :
    (cachedFetch "doc.xml" { method := some "GET", headers := [] }
        (fun _ => JsVal.entry c8Value) (fun _ _ => Except.ok { status := 200, headers := [], body := "fresh" })
        0 0 1 1 0).result =
      Except.error (JsError.policyError "corrupt") := by
  rfl

/-- C8, amended: a stored entry whose policy snapshot cannot be
reconstructed is not treated as a miss: the reconstruction failure is
surfaced to the caller as a rejection, the transport is never
consulted, and no entry is written. -/
theorem c8_amended (url : String) (options : RequestOptions) (store : String → JsVal)
    (bf : BaseFetch) (t0 gd fd bd now : Nat) (cv : HttpCacheValue) (e : String)
    (h1 : store url = JsVal.entry cv)
    (h2 : fromObject cv.policy = Except.error e) :
    (cachedFetch url options store bf t0 gd fd bd now).result =
        Except.error (JsError.policyError e) ∧
    (∀ te ∈ (cachedFetch url options store bf t0 gd fd bd now).trace,
        isFetchStartE te.2 = false) ∧
    storedValues (cachedFetch url options store bf t0 gd fd bd now).trace = [] := by
  have hred : cachedFetch url options store bf t0 gd fd bd now =
      { result := Except.error (JsError.policyError e)
        returnTime := t0 + gd
        trace := [(t0, Event.storeGet url options.method)] } := by
    simp [cachedFetch, h1, handleCacheHit, h2]
  rw [hred]
  refine ⟨rfl, ?_, rfl⟩
  intro te hte
  rcases List.mem_cons.mp hte with rfl | h3
  · rfl
  · exact absurd h3 (List.not_mem_nil te)

/-- C8, witness for the amended theorem at a concrete malformed
entry. -/
theorem c8_amended_witness :
    (cachedFetch "feed.xml" { method := some "GET", headers := [] }
        (fun _ => JsVal.entry c8Value) (fun _ _ => Except.ok { status := 200, headers := [], body := "fresh" })
        2 0 1 1 0).result =
      Except.error (JsError.policyError "corrupt") :=
  (c8_amended "feed.xml" { method := some "GET", headers := [] }
    (fun _ => JsVal.entry c8Value) (fun _ _ => Except.ok { status := 200, headers := [], body := "fresh" })
    2 0 1 1 0 c8Value "corrupt" rfl rfl).1

/-- C9, counterexample: at the moment the Store lookup is performed the
request method is still the lowercase "get" the caller supplied — the
lookup precedes normalization, refuting the claim that the method is
normalized to uppercase before any Store lookup. -/
theorem c9_counterexample :
    (cachedFetch "doc.xml" { method := some "get", headers := [] }
        (fun _ => JsVal.undef) (fun _ _ => Except.error "down") 0 0 1 1 0).trace.head? =
      some (0, Event.storeGet "doc.xml" (some "get")) := by
  rfl

/-- C9, amended: the Store lookup happens before the method is
normalized (first conjunct: the lookup sees the method exactly as
supplied), but the lookup key is the URL alone and the method is
uppercased before the hit and miss handlers run, so two requests whose
methods differ only in letter case settle identically, at the same
time, and perform the same effects after the lookup. -/
theorem c9_amended (url : String) (o1 : RequestOptions) (m2 : Option String)
    (store : String → JsVal) (bf : BaseFetch) (t0 gd fd bd now : Nat)
    (hm : o1.method.map upperStr = m2.map upperStr) :
    (cachedFetch url o1 store bf t0 gd fd bd now).trace.head? =
        some (t0, Event.storeGet url o1.method) ∧
    (cachedFetch url { method := m2, headers := o1.headers } store bf t0 gd fd bd now).result =
        (cachedFetch url o1 store bf t0 gd fd bd now).result ∧
    (cachedFetch url { method := m2, headers := o1.headers } store bf t0 gd fd bd now).returnTime =
        (cachedFetch url o1 store bf t0 gd fd bd now).returnTime ∧
    (cachedFetch url { method := m2, headers := o1.headers } store bf t0 gd fd bd now).trace.tail =
        (cachedFetch url o1 store bf t0 gd fd bd now).trace.tail := by
  have hn := normalizeOptions_method_congr url o1 m2 hm
  unfold cachedFetch
  rw [hn]
  cases hs : store url <;> simp

/-- C9, witness for the amended theorem: requests with methods "GET"
and "get" settle with the same result. -/
theorem c9_amended_witness :
    (cachedFetch "doc.xml" { method := some "GET", headers := [] }
        (fun _ => JsVal.undef) (fun _ _ => Except.error "down") 0 0 1 1 0).result =
      (cachedFetch "doc.xml" { method := some "get", headers := [] }
        (fun _ => JsVal.undef) (fun _ _ => Except.error "down") 0 0 1 1 0).result :=
  (c9_amended "doc.xml" { method := some "get", headers := [] } (some "GET")
    (fun _ => JsVal.undef) (fun _ _ => Except.error "down") 0 0 1 1 0 (by decide)).2.1

/-- C10: whenever the Store read returns anything other than exactly
`undefined`, the result is that of the cache-hit path on the returned
value — in particular a `null` value reaches the unguarded
destructuring and settles the call with a type error, and an entry
whose policy snapshot cannot be reconstructed settles it with the
reconstruction error; only an `undefined` read takes the miss path. -/
theorem c10_nonundef_hit (url : String) (options : RequestOptions) (store : String → JsVal)
    (bf : BaseFetch) (t0 gd fd bd now : Nat)
    (h : store url ≠ JsVal.undef) :
    (cachedFetch url options store bf t0 gd fd bd now).result =
        (handleCacheHit url (store url) (normalizeOptions url options) bf (t0 + gd) fd bd now).result ∧
    (store url = JsVal.null →
        (cachedFetch url options store bf t0 gd fd bd now).result =
          Except.error (JsError.typeError "destructure null")) ∧
    (∀ cv e, store url = JsVal.entry cv → fromObject cv.policy = Except.error e →
        (cachedFetch url options store bf t0 gd fd bd now).result =
          Except.error (JsError.policyError e)) := by
  cases hs : store url with
  | undef => exact absurd hs h
  | null =>
    refine ⟨?_, fun _ => ?_, ?_⟩
    · simp [cachedFetch, hs, handleCacheHit]
    · simp [cachedFetch, hs, handleCacheHit]
    · intro cv e hcv he
      exact absurd hcv (by simp)
  | entry cv =>
    refine ⟨?_, ?_, ?_⟩
    · simp [cachedFetch, hs]
    · intro hnull
      exact absurd hnull (by simp)
    · intro cv2 e hcv he
      injection hcv with hcv2
      simp [cachedFetch, hs, handleCacheHit, hcv2, he]

/-- C10, witness: a Store that answers `null` makes the call settle
with the destructuring type error of the hit path. -/
theorem c10_witness :
    (cachedFetch "doc.xml" { method := some "GET", headers := [] }
        (fun _ => JsVal.null) (fun _ _ => Except.error "down") 0 0 1 1 0).result =
      Except.error (JsError.typeError "destructure null") :=
  (c10_nonundef_hit "doc.xml" { method := some "GET", headers := [] }
    (fun _ => JsVal.null) (fun _ _ => Except.error "down") 0 0 1 1 0 (by decide)).2.1 rfl

end HyperviewCache
